import Mathlib

/-!
# Verification of the DeepSeekTerminal session core

A shallow embedding of `src/DeepSeekTerminal.py`:

* `DeepSeekClient.chat`   → `chat` (plus the request body `buildPayload`)
* `ChatHistory.new_chat`  → `new_chat`
* `ChatHistory.save_chat` → `save_chat` (tree level) and `serializeChat`
  (byte level, the exact `json.dump(..., indent=2, ensure_ascii=False)` text)
* `ChatHistory.load_chat` → `load_chat`
* `ChatHistory.get_chat_list` → `get_chat_list`
* `ChatHistory.add_message`   → `add_message`
* `ChatHistory.delete_chat`   → `delete_chat`
* `DeepSeekApp.send_message`  → a small transition system (`submitSend`,
  `runQueuedSend`) for its `@work(exclusive=True)` worker, whose `async`
  body contains no `await` (the HTTP call is synchronous) and therefore
  runs atomically once started
* `DeepSeekApp.on_chat_deleted` → `on_chat_deleted`

Python values decoded from JSON files are modelled by the inductive `Json`
(`json.load` / `json.dump` map between file bytes and this tree; `null`
decodes to Python `None`).  Python `dict` operations (`in`, subscription,
`.get`), truthiness, `str.strip`, and `datetime` formatting/parsing are
modelled by the `py*` / `DateTime` helpers below, each following CPython
semantics on the fragments the program exercises.
-/

/-- A JSON value, as produced by Python's `json.load`.  Numbers are modelled
as rationals (covers the program's `0.7`, `2000` and any decoded numeric). -/
inductive Json where
  | null : Json
  | bool (b : Bool) : Json
  | num (q : Rat) : Json
  | str (s : String) : Json
  | arr (xs : List Json) : Json
  | obj (kvs : List (String × Json)) : Json
  deriving Repr

/-- Python truthiness (`bool(x)`) of a JSON-decoded value. -/
def pyTruthy : Json → Bool
  | .null => false
  | .bool b => b
  | .num q => q ≠ 0
  | .str s => s ≠ ""
  | .arr xs => !xs.isEmpty
  | .obj kvs => !kvs.isEmpty

/-- Dictionary lookup for a decoded JSON object.  `json.load` keeps the last
occurrence of a duplicated key, hence the reversed search. -/
def jLookup (kvs : List (String × Json)) (k : String) : Option Json :=
  (kvs.reverse.find? (fun kv => kv.1 = k)).map (fun kv => kv.2)

/-- `d[k]` on a decoded object; `none` models the raised `KeyError`. -/
def jGet : Json → String → Option Json
  | .obj kvs, k => jLookup kvs k
  | _, _ => none

/-- Whether `s` occurs as a contiguous substring of `hay`
(Python's `needle in hay` for strings). -/
def strContains (hay needle : String) : Bool :=
  (List.range (hay.data.length + 1)).any
    (fun i => needle.data.isPrefixOf (hay.data.drop i))

/-- Python's `needle in x` for a JSON-decoded `x`; `Except.error` models the
`TypeError` raised when `x` is not a container/string. -/
def pyContains (needle : String) : Json → Except Unit Bool
  | .obj kvs => .ok (kvs.any (fun kv => kv.1 = needle))
  | .arr xs => .ok (xs.any (fun x => match x with | .str s => s = needle | _ => false))
  | .str s => .ok (strContains s needle)
  | _ => .error ()

/-- Python's `x[k]` with a string key; errors model `TypeError`/`KeyError`. -/
def pySubscript (j : Json) (k : String) : Except Unit Json :=
  match j with
  | .obj kvs =>
    match jLookup kvs k with
    | some v => .ok v
    | none => .error ()
  | _ => .error ()

/-- Python's `x[0]`; errors model `TypeError`/`IndexError`.  Indexing a
string yields its first character as a one-character string. -/
def pySubscriptZero : Json → Except Unit Json
  | .arr (x :: _) => .ok x
  | .arr [] => .error ()
  | .str s =>
    match s.data with
    | c :: _ => .ok (.str (String.mk [c]))
    | [] => .error ()
  | _ => .error ()

/-- The whitespace characters stripped by `str.strip()` (ASCII fragment of
CPython's definition). -/
def pyIsSpace (c : Char) : Bool :=
  c = ' ' || c = '\t' || c = '\n' || c = '\r' || c = '\x0b' || c = '\x0c'

/-- Python's `s.strip()`. -/
def pyStrip (s : String) : String :=
  String.mk (((s.data.dropWhile pyIsSpace).reverse.dropWhile pyIsSpace).reverse)

/-- Python's `str(x)` / f-string interpolation for the values the program
interpolates (only strings occur on the claims' paths). -/
def pyToStr : Json → String
  | .str s => s
  | .null => "None"
  | .bool true => "True"
  | .bool false => "False"
  | .num q => toString q
  | .arr _ => "<list>"
  | .obj _ => "<dict>"

/-- A wall-clock instant as carried by Python's `datetime`. -/
structure DateTime where
  year : Nat
  month : Nat
  day : Nat
  hour : Nat
  minute : Nat
  second : Nat
  microsecond : Nat
  deriving Repr, DecidableEq

/-- Zero-pad the decimal form of `n` on the left to width `w`
(Python's `%04d`-style formatting used by `strftime`/`isoformat`). -/
def padNum (w : Nat) (n : Nat) : String :=
  let s := toString n
  String.mk (List.replicate (w - s.length) '0' ++ s.data)

/-- `datetime.isoformat()`: `YYYY-MM-DDTHH:MM:SS[.ffffff]`, the fractional
part present exactly when the microsecond field is nonzero. -/
def isoformat (t : DateTime) : String :=
  padNum 4 t.year ++ "-" ++ padNum 2 t.month ++ "-" ++ padNum 2 t.day ++ "T" ++
    padNum 2 t.hour ++ ":" ++ padNum 2 t.minute ++ ":" ++ padNum 2 t.second ++
    (if t.microsecond = 0 then "" else "." ++ padNum 6 t.microsecond)

/-- `strftime("%Y-%m-%d %H:%M")` (the listing's display/sort key). -/
def fmtMinute (t : DateTime) : String :=
  padNum 4 t.year ++ "-" ++ padNum 2 t.month ++ "-" ++ padNum 2 t.day ++ " " ++
    padNum 2 t.hour ++ ":" ++ padNum 2 t.minute

/-- `strftime("%Y%m%d_%H%M%S")` (the chat-id generator in `new_chat`). -/
def fmtId (t : DateTime) : String :=
  padNum 4 t.year ++ padNum 2 t.month ++ padNum 2 t.day ++ "_" ++
    padNum 2 t.hour ++ padNum 2 t.minute ++ padNum 2 t.second

/-- Read exactly `w` decimal digits from the front of `l`. -/
def readFixedNat (w : Nat) (l : List Char) : Option (Nat × List Char) :=
  let ds := l.take w
  if ds.length = w ∧ ds.all Char.isDigit then
    some (ds.foldl (fun a c => a * 10 + (c.toNat - 48)) 0, l.drop w)
  else none

/-- Consume an expected single character. -/
def expectChar (c : Char) : List Char → Option (List Char)
  | x :: rest => if x = c then some rest else none
  | [] => none

/-- Days in a month, with the Gregorian leap rule (as `datetime` validates). -/
def daysInMonth (y m : Nat) : Nat :=
  if m = 2 then (if y % 4 = 0 ∧ (y % 100 ≠ 0 ∨ y % 400 = 0) then 29 else 28)
  else if m = 4 ∨ m = 6 ∨ m = 9 ∨ m = 11 then 30 else 31

/-- The fractional-seconds part of `fromisoformat`: exactly 6 or 3 digits
(CPython accepts only these two widths), value in microseconds. -/
def readFrac (l : List Char) : Option (Nat × List Char) :=
  match readFixedNat 6 l with
  | some (v, rest) => some (v, rest)
  | none =>
    match readFixedNat 3 l with
    | some (v, rest) => some (v * 1000, rest)
    | none => none

/-- The `HH[:MM[:SS[.ffffff]]]` part of `fromisoformat`; must consume all
remaining input. -/
def readTime (l : List Char) : Option (Nat × Nat × Nat × Nat) :=
  match readFixedNat 2 l with
  | none => none
  | some (h, r1) =>
    match r1 with
    | [] => some (h, 0, 0, 0)
    | ':' :: r2 =>
      match readFixedNat 2 r2 with
      | none => none
      | some (mi, r3) =>
        match r3 with
        | [] => some (h, mi, 0, 0)
        | ':' :: r4 =>
          match readFixedNat 2 r4 with
          | none => none
          | some (se, r5) =>
            match r5 with
            | [] => some (h, mi, se, 0)
            | '.' :: r6 =>
              match readFrac r6 with
              | some (us, []) => some (h, mi, se, us)
              | _ => none
            | _ => none
        | _ => none
    | _ => none

/-- `datetime.fromisoformat`: `YYYY-MM-DD` optionally followed by a one-char
separator and `HH[:MM[:SS[.fff|.ffffff]]]`, with calendar validation;
`Except.error` models the raised `ValueError`/`TypeError`. -/
def fromisoformat (s : String) : Except Unit DateTime :=
  match readFixedNat 4 s.data with
  | none => .error ()
  | some (y, r1) =>
    match expectChar '-' r1 with
    | none => .error ()
    | some r2 =>
      match readFixedNat 2 r2 with
      | none => .error ()
      | some (mo, r3) =>
        match expectChar '-' r3 with
        | none => .error ()
        | some r4 =>
          match readFixedNat 2 r4 with
          | none => .error ()
          | some (d, r5) =>
            let time? : Option (Nat × Nat × Nat × Nat) :=
              match r5 with
              | [] => some (0, 0, 0, 0)
              | _sep :: r6 => readTime r6
            match time? with
            | none => .error ()
            | some (h, mi, se, us) =>
              if 1 ≤ y ∧ y ≤ 9999 ∧ 1 ≤ mo ∧ mo ≤ 12 ∧ 1 ≤ d ∧
                  d ≤ daysInMonth y mo ∧ h ≤ 23 ∧ mi ≤ 59 ∧ se ≤ 59 then
                .ok ⟨y, mo, d, h, mi, se, us⟩
              else .error ()

/-- One chat file's content: `ok j` when `json.load` yields the tree `j`,
`bad` when the bytes do not parse as JSON (`json.load` raises). -/
inductive FileJson where
  | ok (j : Json) : FileJson
  | bad : FileJson

/-- The `chats` directory: file stems (name minus `.json`) with contents, in
directory-enumeration (`glob`) order. -/
abbrev Store := List (String × FileJson)

/-- Find a file by stem (filenames are unique within the directory). -/
def storeGet (s : Store) (k : String) : Option FileJson :=
  ((s : List (String × FileJson)).find? (fun kv => kv.1 = k)).map (fun kv => kv.2)

/-- Rewrite a file in place (keeps its directory slot), or create it. -/
def storeSet : Store → String → FileJson → Store
  | [], k, v => [(k, v)]
  | (k0, v0) :: rest, k, v =>
    if k0 = k then (k0, v) :: rest else (k0, v0) :: storeSet rest k v

/-- `Path.unlink`: remove the file. -/
def storeDel (s : Store) (k : String) : Store :=
  (s : List (String × FileJson)).filter (fun kv => !(kv.1 == k))

/-- The mutable state of a `ChatHistory` instance: `current_chat_id` (a
Python string or `None`; kept as `Json` because `load_chat` assigns it the
raw decoded `data["id"]`) and `current_chat` (Python list of message dicts;
the decoded `data["messages"]` list). -/
structure ChatHistory where
  current_chat_id : Option Json
  current_chat : List Json

/-- The message dict appended by `ChatHistory.add_message`. -/
def msgObj (role content : String) (t : DateTime) : Json :=
  .obj [("role", .str role), ("content", .str content),
        ("timestamp", .str (isoformat t))]

/-- `ChatHistory.new_chat`, at instant `t`: id is the
`strftime("%Y%m%d_%H%M%S")` timestamp, the message list is reset. -/
def new_chat (t : DateTime) : ChatHistory × String :=
  (⟨some (.str (fmtId t)), []⟩, fmtId t)

/-- The record dict `ChatHistory.save_chat` dumps: both `created` and
`last_modified` are fresh `datetime.now()` calls at save time (`tc`, `tm`). -/
def recordJson (idv : Json) (msgs : List Json) (tc tm : DateTime) : Json :=
  .obj [("id", idv), ("messages", .arr msgs),
        ("created", .str (isoformat tc)), ("last_modified", .str (isoformat tm))]

/-- `ChatHistory.save_chat`: skipped when there is no current id, the id is
falsy, or the message list is empty; otherwise rewrites the whole record
under `f"{current_chat_id}.json"`. -/
def save_chat (h : ChatHistory) (store : Store) (tc tm : DateTime) : Store :=
  match h.current_chat_id with
  | none => store
  | some idv =>
    if pyTruthy idv = false ∨ h.current_chat.isEmpty then store
    else storeSet store (pyToStr idv) (.ok (recordJson idv h.current_chat tc tm))

/-- `ChatHistory.add_message`: append the message dict (stamped `tMsg`),
then auto-save (whose two `datetime.now()` calls are `tc`, `tm`). -/
def add_message (h : ChatHistory) (store : Store) (role content : String)
    (tMsg tc tm : DateTime) : ChatHistory × Store :=
  let h2 : ChatHistory :=
    { h with current_chat := h.current_chat ++ [msgObj role content tMsg] }
  (h2, save_chat h2 store tc tm)

/-- A decoded `data["messages"]` assigned into the `List`-typed
`current_chat` field; the program only ever stores lists there. -/
def jsonAsList : Json → List Json
  | .arr xs => xs
  | _ => []

/-- `ChatHistory.load_chat`.  Mirrors the source's statement order: inside
the `try`, `current_chat_id` is assigned from `data["id"]` *before*
`data["messages"]` is read, so a `KeyError` on `messages` returns `False`
with the id already overwritten. -/
def load_chat (h : ChatHistory) (store : Store) (chat_id : String) :
    ChatHistory × Bool :=
  match storeGet store chat_id with
  | none => (h, false)
  | some .bad => (h, false)
  | some (.ok data) =>
    match jGet data "id" with
    | none => (h, false)
    | some idv =>
      let h1 : ChatHistory := { h with current_chat_id := some idv }
      match jGet data "messages" with
      | none => (h1, false)
      | some v => ({ h1 with current_chat := jsonAsList v }, true)

/-- `ChatHistory.delete_chat`: unlink if the file exists. -/
def delete_chat (store : Store) (chat_id : String) : Store × Bool :=
  if (storeGet store chat_id).isSome then (storeDel store chat_id, true)
  else (store, false)

/-- `x == "user"` for a decoded value (Python `==` between a decoded value
and a string literal; non-strings compare unequal without raising). -/
def jsonIsStr (j : Json) (s : String) : Bool :=
  match j with
  | .str t => t = s
  | _ => false

/-- Python iteration `for msg in x`: lists yield elements, strings yield
one-character strings, dicts yield their keys; other values raise. -/
def pyElems : Json → Except Unit (List Json)
  | .arr xs => .ok xs
  | .str s => .ok (s.data.map (fun c => .str (String.mk [c])))
  | .obj kvs => .ok (kvs.map (fun kv => Json.str kv.1))
  | _ => .error ()

/-- Python `len(x)` for the same three container shapes. -/
def pyLen : Json → Except Unit Nat
  | .arr xs => .ok xs.length
  | .str s => .ok s.length
  | .obj kvs => .ok kvs.length
  | _ => .error ()

/-- The title truncation in `get_chat_list`:
`if len(title) > 30: title = title[:27] + "..."`. -/
def truncTitle (s : String) : String :=
  if s.length > 30 then String.mk (s.data.take 27) ++ "..." else s

/-- The title loop of `get_chat_list` over the decoded messages: first
message whose `role` equals `"user"` contributes `content.strip()`
(truncated); otherwise the placeholder `"新聊天"`.  Errors model the
exceptions (`KeyError`/`TypeError`/`AttributeError`) that make
`get_chat_list` skip the whole file. -/
def computeTitle : List Json → Except Unit String
  | [] => .ok "新聊天"
  | msg :: rest =>
    match pySubscript msg "role" with
    | .error _ => .error ()
    | .ok roleV =>
      if jsonIsStr roleV "user" then
        match pySubscript msg "content" with
        | .error _ => .error ()
        | .ok (.str c) => .ok (truncTitle (pyStrip c))
        | .ok _ => .error ()
      else computeTitle rest

/-- `dict.get(k, default)` on a decoded object. -/
def jGetD (j : Json) (k : String) (d : Json) : Json :=
  (jGet j k).getD d

/-- `datetime.fromisoformat` applied to a decoded value: raises `TypeError`
unless the value is a string. -/
def fromisoJson : Json → Except Unit DateTime
  | .str s => fromisoformat s
  | _ => .error ()

/-- One entry of the list built by `get_chat_list`. -/
structure ChatSummary where
  id : Json
  title : String
  created : String
  modified : String
  message_count : Nat

/-- The per-file `try` body of `get_chat_list`; `none` models the
`except: continue` (the file is skipped). -/
def summarize : FileJson → Option ChatSummary
  | .bad => none
  | .ok data =>
    match jGet data "messages" with
    | none => none
    | some msgsV =>
      match pyElems msgsV with
      | .error _ => none
      | .ok msgs =>
        match computeTitle msgs with
        | .error _ => none
        | .ok title =>
          match fromisoJson (jGetD data "created" (.str "2023-01-01T00:00:00")) with
          | .error _ => none
          | .ok ct =>
            match fromisoJson (jGetD data "last_modified" (.str "2023-01-01T00:00:00")) with
            | .error _ => none
            | .ok mt =>
              match jGet data "id" with
              | none => none
              | some idv =>
                match pyLen msgsV with
                | .error _ => none
                | .ok n =>
                  some ⟨idv, title, fmtMinute ct, fmtMinute mt, n⟩

/-- Python's `<` on strings: lexicographic by code point. -/
def charListLt : List Char → List Char → Bool
  | [], [] => false
  | [], _ :: _ => true
  | _ :: _, [] => false
  | a :: as, b :: bs =>
    if a.toNat < b.toNat then true
    else if b.toNat < a.toNat then false
    else charListLt as bs

/-- Python's `a < b` for strings. -/
def pyStrLtB (a b : String) : Bool := charListLt a.data b.data

/-- Python's `a <= b` for strings (`not (b < a)`, as in any total order). -/
def pyStrLeB (a b : String) : Bool := !(pyStrLtB b a)

/-- Python's `sorted(l, key=key, reverse=True)`: the stable descending sort
by `key`.  `List.insertionSort` with this total preorder computes exactly
that (an earlier element is inserted, right to left, before any
equal-keyed later element). -/
def pySortedRev {α : Type} (key : α → String) (l : List α) : List α :=
  List.insertionSort (fun a b => pyStrLeB (key b) (key a) = true) l

/-- `ChatHistory.get_chat_list`: summarize each file in directory order,
skipping unparseable ones, then sort by the formatted `modified` string,
descending. -/
def get_chat_list (files : Store) : List ChatSummary :=
  pySortedRev (fun s => s.modified)
    ((files : List (String × FileJson)).filterMap (fun kv => summarize kv.2))

/-- The JSON request body built by `DeepSeekClient.chat`: the history
messages verbatim, the fixed model id, `temperature` 0.7, `max_tokens`
2000, `stream` false. -/
def buildPayload (messages : List Json) : Json :=
  .obj [("model", .str "deepseek-chat"), ("messages", .arr messages),
        ("temperature", .num (7 / 10)), ("max_tokens", .num 2000),
        ("stream", .bool false)]

/-- What the HTTP layer hands back to `DeepSeekClient.chat`; this is the
environment of one call.  `ok`: success status with a JSON body; `badJson`:
success status, body not JSON (`response.json()` raises `ValueError`);
`statusError`: `raise_for_status` raises `httpx.HTTPStatusError`;
`requestError`: `httpx.RequestError` (timeout, connection, DNS);
`otherFailure`: any other exception. -/
inductive HttpOutcome where
  | ok (data : Json) : HttpOutcome
  | badJson (desc : String) : HttpOutcome
  | statusError (status : Nat) (text : String) : HttpOutcome
  | requestError (desc : String) : HttpOutcome
  | otherFailure (desc : String) : HttpOutcome

/-- The response-shape extraction of `DeepSeekClient.chat`:
`if "choices" in data and data["choices"]: choice = data["choices"][0];
if "message" in choice and "content" in choice["message"]: return
choice["message"]["content"], None`.  `ok (some v)` is a returned content
value `v` (possibly `null`!), `ok none` falls through to the
protocol-shape error, `error` is a raised exception (caught by the
enclosing `except Exception`). -/
def extractContent (data : Json) : Except Unit (Option Json) := do
  let b1 ← pyContains "choices" data
  if b1 then
    let v ← pySubscript data "choices"
    if pyTruthy v then
      let choice ← pySubscriptZero v
      let b2 ← pyContains "message" choice
      if b2 then
        let m ← pySubscript choice "message"
        let b3 ← pyContains "content" m
        if b3 then
          let c ← pySubscript m "content"
          return some c
        else return none
      else return none
    else return none
  else return none

/-- A returned content value as the Python caller sees it: JSON `null`
decoded to Python `None`, i.e. an absent content. -/
def jsonToOpt : Json → Option Json
  | .null => none
  | v => some v

/-- The post-HTTP part of `DeepSeekClient.chat` on a decoded body.  The
`str(e)` text of a caught unexpected exception is abstracted by a fixed
marker (no claim depends on it). -/
def chatBody (data : Json) : Option Json × Option String :=
  match extractContent data with
  | .ok (some c) => (jsonToOpt c, none)
  | .ok none => (none, some "API响应中没有找到回复内容")
  | .error _ => (none, some "未知错误: <exception>")

/-- `DeepSeekClient.chat`: sends `buildPayload messages` and classifies the
outcome; returns `(content, error)`. -/
def chat (messages : List Json) (outcome : HttpOutcome) :
    Option Json × Option String :=
  let _payload := buildPayload messages
  match outcome with
  | .ok data => chatBody data
  | .badJson desc => (none, some ("未知错误: " ++ desc))
  | .statusError st text =>
    (none, some ("API错误: " ++ toString st ++ " - " ++ text))
  | .requestError desc => (none, some ("网络请求错误: " ++ desc))
  | .otherFailure desc => (none, some ("未知错误: " ++ desc))

/-- The single-threaded Textual/asyncio scheduler state for `send_message`
workers.  `send_message` is declared `async` and decorated
`@work(exclusive=True)`, but its body contains no `await` —
`DeepSeekClient.chat` calls *synchronous* `httpx.post` — so a worker has
no suspension point: once the event loop starts it, the entire body
(strip check, `user` append, blocking HTTP call, assistant append / error
display) runs atomically with respect to the loop.  Exclusive-worker
cancellation can therefore only take effect on a worker that has not
started yet: creating a new `send_message` worker cancels a still-queued
previous one outright, and none of the cancelled worker's body ever runs.
`queued` is the at-most-one created-but-not-yet-started worker, carrying
its message text. -/
structure WorkerSched where
  hist : ChatHistory
  store : Store
  queued : Option String

/-- `DeepSeekApp.send_message(text)`: create the exclusive worker.  A
previously queued (not yet started) worker of the group is cancelled
before ever running — its user message is never appended — and the new
worker takes the queue slot. -/
def submitSend (w : WorkerSched) (text : String) : WorkerSched :=
  { w with queued := some text }

/-- The event loop starts the queued worker, which runs `send_message`'s
whole body in one indivisible step (the body never awaits): the strip
check, the `user` append (instant `tU`), the blocking `client.chat` call
answered by the environment with `outcome`, and then
`if error: show_error elif content: append assistant else: show_error`
(assistant append at instant `tA`). -/
def runQueuedSend (w : WorkerSched) (outcome : HttpOutcome)
    (tU tA : DateTime) : WorkerSched :=
  match w.queued with
  | none => w
  | some text =>
    if pyStrip text = "" then { w with queued := none }
    else
      let hs := add_message w.hist w.store "user" text tU tU tU
      let res := chat hs.1.current_chat outcome
      match res with
      | (_, some _) => { hist := hs.1, store := hs.2, queued := none }
      | (some c, none) =>
        if pyTruthy c then
          let hs2 := add_message hs.1 hs.2 "assistant" (pyToStr c) tA tA tA
          { hist := hs2.1, store := hs2.2, queued := none }
        else { hist := hs.1, store := hs.2, queued := none }
      | (none, none) => { hist := hs.1, store := hs.2, queued := none }

/-- The app-level state touched by `on_chat_deleted`: the history instance,
the chats directory, and `DeepSeekApp.current_chat_id`. -/
structure AppState where
  hist : ChatHistory
  store : Store
  app_chat_id : Option String

/-- `DeepSeekApp.on_chat_deleted` at instant `t`: delete the file; if it was
the current chat, `create_new_chat` (which calls `new_chat`). -/
def on_chat_deleted (a : AppState) (chat_id : String) (t : DateTime) : AppState :=
  let ds := delete_chat a.store chat_id
  if ds.2 then
    if a.app_chat_id = some chat_id then
      let hn := new_chat t
      { hist := hn.1, store := ds.1, app_chat_id := some hn.2 }
    else { a with store := ds.1 }
  else a

/-- A string literal's characters (brace-free chunks of the dump layout). -/
def lit (s : String) : List Char := s.data

/-- Lower-case hexadecimal digit (for `\u00XX` escapes). -/
def hexDigit : Nat → Char
  | 0 => '0' | 1 => '1' | 2 => '2' | 3 => '3' | 4 => '4' | 5 => '5'
  | 6 => '6' | 7 => '7' | 8 => '8' | 9 => '9' | 10 => 'a' | 11 => 'b'
  | 12 => 'c' | 13 => 'd' | 14 => 'e' | 15 => 'f'
  | _ => '0'

/-- `json.dump`'s escaping of one character inside a string literal
(`ensure_ascii=False`): quote, backslash and control characters are
escaped, everything else is emitted verbatim. -/
def escChar (c : Char) : List Char :=
  if c = '"' then ['\\', '"']
  else if c = '\\' then ['\\', '\\']
  else if c = '\n' then ['\\', 'n']
  else if c = '\r' then ['\\', 'r']
  else if c = '\t' then ['\\', 't']
  else if c.toNat = 8 then ['\\', 'b']
  else if c.toNat = 12 then ['\\', 'f']
  else if c.toNat < 32 then
    ['\\', 'u', '0', '0', hexDigit (c.toNat / 16), hexDigit (c.toNat % 16)]
  else [c]

/-- Escape a whole string body. -/
def escList (s : List Char) : List Char := (s.map escChar).flatten

/-- A JSON string literal: `"` body `"`. -/
def jquote (s : List Char) : List Char := '"' :: (escList s ++ ['"'])

/-- Join chunks with a separator. -/
def joinSep (sep : List Char) : List (List Char) → List Char
  | [] => []
  | [x] => x
  | x :: xs => x ++ (sep ++ joinSep sep xs)

/-- A message dict at the byte level (all three values are strings, as
`add_message` writes them). -/
structure MsgB where
  role : List Char
  content : List Char
  timestamp : List Char

/-- The record `save_chat` dumps, at the byte level. -/
structure ChatRecB where
  id : List Char
  messages : List MsgB
  created : List Char
  last_modified : List Char

/-- One message object as `json.dump(..., indent=2)` renders it (at array
nesting depth 1: item indent 4, key indent 6). -/
def serializeMsg (m : MsgB) : List Char :=
  lit "    " ++
    ('\x7b' :: ((lit "\n      " ++ jquote (lit "role") ++ lit ": " ++
      jquote m.role ++ lit ",\n      " ++ jquote (lit "content") ++ lit ": " ++
      jquote m.content ++ lit ",\n      " ++ jquote (lit "timestamp") ++
      lit ": " ++ jquote m.timestamp ++ lit "\n    ") ++ ['\x7d']))

/-- The `messages` array as `json.dump(..., indent=2)` renders it. -/
def serializeMsgs : List MsgB → List Char
  | [] => '[' :: (([] : List Char) ++ [']'])
  | m :: ms =>
    '[' :: ((lit "\n" ++ joinSep (lit ",\n") ((m :: ms).map serializeMsg) ++
      lit "\n  ") ++ [']'])

/-- Everything of the dumped record between the outer braces. -/
def chatBodyChars (r : ChatRecB) : List Char :=
  lit "\n  " ++ jquote (lit "id") ++ lit ": " ++ jquote r.id ++ lit ",\n  " ++
    jquote (lit "messages") ++ lit ": " ++ serializeMsgs r.messages ++
    lit ",\n  " ++ jquote (lit "created") ++ lit ": " ++ jquote r.created ++
    lit ",\n  " ++ jquote (lit "last_modified") ++ lit ": " ++
    jquote r.last_modified ++ lit "\n"

/-- The exact bytes `save_chat` writes:
`json.dump({"id": ..., "messages": ..., "created": ..., "last_modified":
...}, f, ensure_ascii=False, indent=2)`. -/
def serializeChat (r : ChatRecB) : List Char :=
  '\x7b' :: (chatBodyChars r ++ ['\x7d'])

/-- The file contents an observer can see while `save_chat` runs:
`open(chat_file, "w")` first truncates the file, then `json.dump` writes
the serialization incrementally — so the observable states are exactly the
prefixes of the new serialization (the previous content is destroyed at
open time). -/
def saveObservables (r : ChatRecB) : List (List Char) :=
  (List.range ((serializeChat r).length + 1)).map
    (fun k => (serializeChat r).take k)

/-- Scanner state for the JSON well-formedness check: bracket/brace nesting
depth outside string literals, whether we are inside a string literal, and
whether the previous in-string character was an unconsumed backslash. -/
structure JState where
  depth : Nat
  inStr : Bool
  esc : Bool
  deriving Repr, DecidableEq

/-- One scanner step. -/
def jstep (st : JState) (c : Char) : JState :=
  if st.inStr then
    if st.esc then { st with esc := false }
    else if c = '\\' then { st with esc := true }
    else if c = '"' then { st with inStr := false }
    else st
  else if c = '\x7b' ∨ c = '[' then { st with depth := st.depth + 1 }
  else if c = '\x7d' ∨ c = ']' then { st with depth := st.depth - 1 }
  else if c = '"' then { st with inStr := true }
  else st

/-- Scan a character list. -/
def jscan (st : JState) (l : List Char) : JState := l.foldl jstep st

/-- A necessary condition for `json.load` to succeed on bytes that should
hold an object: the text starts with `\x7b` and its braces/brackets,
outside string literals, balance back to depth zero.  Any text failing this
check is rejected by `json.load` (the parser hits end of input inside an
open construct); we use it as an over-approximation of loadability, which
is the sound direction for proving that truncations never load. -/
def jsonCompleteTop (l : List Char) : Bool :=
  match l with
  | [] => false
  | c :: _ =>
    let fin := jscan ⟨0, false, false⟩ l
    c = '\x7b' && fin.depth = 0 && !fin.inStr

theorem jscan_nil (st : JState) : jscan st [] = st := rfl

theorem jscan_cons (st : JState) (c : Char) (l : List Char) :
    jscan st (c :: l) = jscan (jstep st c) l := rfl

theorem jscan_append (st : JState) (a b : List Char) :
    jscan st (a ++ b) = jscan (jscan st a) b :=
  List.foldl_append ..

/-- A character that the scanner treats as inert outside strings. -/
abbrev PlainChar (c : Char) : Prop :=
  c ≠ '"' ∧ c ≠ '\\' ∧ c ≠ '\x7b' ∧ c ≠ '\x7d' ∧ c ≠ '[' ∧ c ≠ ']'

/-- A balanced scanner segment: scanned from any out-of-string state it
returns to that state, and — when the surrounding depth is at least one —
every intermediate state still has positive depth or is inside a string
(so the scan never looks complete strictly inside the segment). -/
def SegInv (l : List Char) : Prop :=
  ∀ d, jscan ⟨d, false, false⟩ l = ⟨d, false, false⟩ ∧
    ∀ k, 1 ≤ d → 1 ≤ (jscan ⟨d, false, false⟩ (l.take k)).depth ∨
      (jscan ⟨d, false, false⟩ (l.take k)).inStr = true

/-- An in-string scanner segment: from the in-string state it returns to it,
and every intermediate state is still inside the string. -/
def StrSeg (l : List Char) : Prop :=
  ∀ d, jscan ⟨d, true, false⟩ l = ⟨d, true, false⟩ ∧
    ∀ k, (jscan ⟨d, true, false⟩ (l.take k)).inStr = true

theorem segInv_nil : SegInv [] := by
  intro d
  refine ⟨rfl, fun k hd => ?_⟩
  simp only [List.take_nil, jscan_nil]
  exact Or.inl hd

theorem segInv_append {a b : List Char} (ha : SegInv a) (hb : SegInv b) :
    SegInv (a ++ b) := by
  intro d
  constructor
  · rw [jscan_append, (ha d).1, (hb d).1]
  · intro k hd
    rw [List.take_append_eq_append_take, jscan_append]
    by_cases hk : k ≤ a.length
    · have h0 : k - a.length = 0 := by omega
      rw [h0]
      simp only [List.take_zero, jscan_nil]
      exact (ha d).2 k hd
    · have ha2 : a.take k = a := List.take_of_length_le (by omega)
      rw [ha2, (ha d).1]
      exact (hb d).2 (k - a.length) hd

theorem jstep_plain {c : Char} (hc : PlainChar c) (d : Nat) :
    jstep ⟨d, false, false⟩ c = ⟨d, false, false⟩ := by
  obtain ⟨h1, h2, h3, h4, h5, h6⟩ := hc
  simp [jstep, h1, h3, h4, h5, h6]

theorem segInv_lit (l : List Char) (h : ∀ c ∈ l, PlainChar c) : SegInv l := by
  induction l with
  | nil => exact segInv_nil
  | cons c l ih =>
    have hc := h c (List.mem_cons_self c l)
    have ihh := ih (fun x hx => h x (List.mem_cons_of_mem _ hx))
    intro d
    constructor
    · rw [jscan_cons, jstep_plain hc, (ihh d).1]
    · intro k hd
      cases k with
      | zero =>
        simp only [List.take_zero, jscan_nil]
        exact Or.inl hd
      | succ k =>
        rw [List.take_succ_cons, jscan_cons, jstep_plain hc]
        exact (ihh d).2 k hd

theorem strSeg_nil : StrSeg [] := by
  intro d
  exact ⟨rfl, fun k => by simp only [List.take_nil, jscan_nil]⟩

theorem strSeg_append {a b : List Char} (ha : StrSeg a) (hb : StrSeg b) :
    StrSeg (a ++ b) := by
  intro d
  constructor
  · rw [jscan_append, (ha d).1, (hb d).1]
  · intro k
    rw [List.take_append_eq_append_take, jscan_append]
    by_cases hk : k ≤ a.length
    · have h0 : k - a.length = 0 := by omega
      rw [h0]
      simp only [List.take_zero, jscan_nil]
      exact (ha d).2 k
    · have ha2 : a.take k = a := List.take_of_length_le (by omega)
      rw [ha2, (ha d).1]
      exact (hb d).2 (k - a.length)

/-- A backslash followed by any character: one escape sequence. -/
theorem strSeg_escPair (x : Char) : StrSeg ['\\', x] := by
  intro d
  constructor
  · show jscan (jstep (jstep ⟨d, true, false⟩ '\\') x) [] = _
    simp [jscan_nil, jstep]
  · intro k
    rcases k with _ | _ | k <;> simp [jscan, jstep, List.take_succ_cons]

theorem jstep_str_plain {c : Char} (h1 : c ≠ '\\') (h2 : c ≠ '"') (d : Nat) :
    jstep ⟨d, true, false⟩ c = ⟨d, true, false⟩ := by
  simp [jstep, h1, h2]

theorem strSeg_plainList (l : List Char) (h : ∀ c ∈ l, c ≠ '\\' ∧ c ≠ '"') :
    StrSeg l := by
  induction l with
  | nil => exact strSeg_nil
  | cons c l ih =>
    have hc := h c (List.mem_cons_self c l)
    have ihh := ih (fun x hx => h x (List.mem_cons_of_mem _ hx))
    intro d
    constructor
    · rw [jscan_cons, jstep_str_plain hc.1 hc.2, (ihh d).1]
    · intro k
      cases k with
      | zero => simp only [List.take_zero, jscan_nil]
      | succ k =>
        rw [List.take_succ_cons, jscan_cons, jstep_str_plain hc.1 hc.2]
        exact (ihh d).2 k

theorem hexDigit_ne (n : Nat) : hexDigit n ≠ '\\' ∧ hexDigit n ≠ '"' := by
  unfold hexDigit
  split <;> exact (by decide)

theorem strSeg_escChar (c : Char) : StrSeg (escChar c) := by
  unfold escChar
  split_ifs with h1 h2 h3 h4 h5 h6 h7 h8
  · exact strSeg_escPair _
  · exact strSeg_escPair _
  · exact strSeg_escPair _
  · exact strSeg_escPair _
  · exact strSeg_escPair _
  · exact strSeg_escPair _
  · exact strSeg_escPair _
  · show StrSeg (['\\', 'u'] ++ ['0', '0', hexDigit (c.toNat / 16), hexDigit (c.toNat % 16)])
    refine strSeg_append (strSeg_escPair 'u') (strSeg_plainList _ ?_)
    intro x hx
    simp only [List.mem_cons, List.not_mem_nil, or_false] at hx
    rcases hx with h | h | h | h <;> subst h
    · exact ⟨by decide, by decide⟩
    · exact ⟨by decide, by decide⟩
    · exact hexDigit_ne _
    · exact hexDigit_ne _
  · exact strSeg_plainList [c] (by
      intro x hx
      simp only [List.mem_cons, List.not_mem_nil, or_false] at hx
      subst hx
      exact ⟨h2, h1⟩)

theorem strSeg_escList (s : List Char) : StrSeg (escList s) := by
  induction s with
  | nil => exact strSeg_nil
  | cons c s ih =>
    show StrSeg (escChar c ++ escList s)
    exact strSeg_append (strSeg_escChar c) ih

theorem segInv_jquote (s : List Char) : SegInv (jquote s) := by
  have hesc := strSeg_escList s
  intro d
  constructor
  · show jscan (jstep ⟨d, false, false⟩ '"') (escList s ++ ['"']) = _
    have h1 : jstep ⟨d, false, false⟩ '"' = ⟨d, true, false⟩ := by simp [jstep]
    rw [h1, jscan_append, (hesc d).1]
    show jstep ⟨d, true, false⟩ '"' = _
    simp [jstep]
  · intro k hd
    cases k with
    | zero =>
      simp only [List.take_zero, jscan_nil]
      exact Or.inl hd
    | succ k =>
      have hts : (jquote s).take (k + 1) = '"' :: (escList s ++ ['"']).take k := by
        simp [jquote, List.take_succ_cons]
      rw [hts, jscan_cons]
      have h1 : jstep ⟨d, false, false⟩ '"' = ⟨d, true, false⟩ := by simp [jstep]
      rw [h1, List.take_append_eq_append_take, jscan_append]
      by_cases hk : k ≤ (escList s).length
      · have h0 : k - (escList s).length = 0 := by omega
        rw [h0]
        simp only [List.take_zero, jscan_nil]
        exact Or.inr ((hesc d).2 k)
      · have ha2 : (escList s).take k = escList s := List.take_of_length_le (by omega)
        rw [ha2, (hesc d).1]
        rcases Nat.eq_zero_or_pos (k - (escList s).length) with h0 | hpos
        · rw [h0]
          simp [jscan_nil]
        · have : (['"'] : List Char).take (k - (escList s).length) = ['"'] :=
            List.take_of_length_le (by simp only [List.length_singleton]; omega)
          rw [this]
          show 1 ≤ (jstep ⟨d, true, false⟩ '"').depth ∨ _
          have : jstep ⟨d, true, false⟩ '"' = ⟨d, false, false⟩ := by simp [jstep]
          rw [this]
          exact Or.inl hd

/-- Wrapping a balanced segment in an opening/closing delimiter pair. -/
theorem segInv_wrap {o c : Char}
    (ho : ∀ d, jstep ⟨d, false, false⟩ o = ⟨d + 1, false, false⟩)
    (hc : ∀ d, jstep ⟨d + 1, false, false⟩ c = ⟨d, false, false⟩)
    {l : List Char} (h : SegInv l) : SegInv (o :: (l ++ [c])) := by
  intro d
  constructor
  · rw [jscan_cons, ho, jscan_append, (h (d + 1)).1]
    show jstep ⟨d + 1, false, false⟩ c = _
    exact hc d
  · intro k hd
    cases k with
    | zero =>
      simp only [List.take_zero, jscan_nil]
      exact Or.inl hd
    | succ k =>
      rw [List.take_succ_cons, jscan_cons, ho, List.take_append_eq_append_take,
        jscan_append]
      by_cases hk : k ≤ l.length
      · have h0 : k - l.length = 0 := by omega
        rw [h0]
        simp only [List.take_zero, jscan_nil]
        exact (h (d + 1)).2 k (by omega)
      · have ha2 : l.take k = l := List.take_of_length_le (by omega)
        rw [ha2, (h (d + 1)).1]
        rcases Nat.eq_zero_or_pos (k - l.length) with h0 | hpos
        · rw [h0]
          simp only [List.take_zero, jscan_nil]
          exact Or.inl (by omega)
        · have htk : ([c] : List Char).take (k - l.length) = [c] :=
            List.take_of_length_le (by simp only [List.length_singleton]; omega)
          rw [htk]
          show 1 ≤ (jstep ⟨d + 1, false, false⟩ c).depth ∨ _
          rw [hc]
          exact Or.inl hd

theorem jstep_open_brace (d : Nat) :
    jstep ⟨d, false, false⟩ '\x7b' = ⟨d + 1, false, false⟩ := by simp [jstep]

theorem jstep_close_brace (d : Nat) :
    jstep ⟨d + 1, false, false⟩ '\x7d' = ⟨d, false, false⟩ := by simp [jstep]

theorem jstep_open_bracket (d : Nat) :
    jstep ⟨d, false, false⟩ '[' = ⟨d + 1, false, false⟩ := by simp [jstep]

theorem jstep_close_bracket (d : Nat) :
    jstep ⟨d + 1, false, false⟩ ']' = ⟨d, false, false⟩ := by simp [jstep]

theorem segInv_joinSep (sep : List Char) (hsep : SegInv sep) :
    ∀ parts : List (List Char), (∀ p ∈ parts, SegInv p) →
      SegInv (joinSep sep parts) := by
  intro parts
  induction parts with
  | nil => intro _; exact segInv_nil
  | cons x rest ih =>
    intro h
    cases rest with
    | nil => exact h x (List.mem_cons_self x [])
    | cons y rest2 =>
      show SegInv (x ++ (sep ++ joinSep sep (y :: rest2)))
      refine segInv_append (h x (List.mem_cons_self ..)) (segInv_append hsep ?_)
      exact ih (fun p hp => h p (List.mem_cons_of_mem _ hp))

theorem segInv_serializeMsg (m : MsgB) : SegInv (serializeMsg m) := by
  unfold serializeMsg
  refine segInv_append (segInv_lit (lit "    ") (by decide)) ?_
  refine segInv_wrap jstep_open_brace jstep_close_brace ?_
  refine segInv_append ?_ (segInv_lit (lit "\n    ") (by decide))
  refine segInv_append ?_ (segInv_jquote m.timestamp)
  refine segInv_append ?_ (segInv_lit (lit ": ") (by decide))
  refine segInv_append ?_ (segInv_jquote (lit "timestamp"))
  refine segInv_append ?_ (segInv_lit (lit ",\n      ") (by decide))
  refine segInv_append ?_ (segInv_jquote m.content)
  refine segInv_append ?_ (segInv_lit (lit ": ") (by decide))
  refine segInv_append ?_ (segInv_jquote (lit "content"))
  refine segInv_append ?_ (segInv_lit (lit ",\n      ") (by decide))
  refine segInv_append ?_ (segInv_jquote m.role)
  refine segInv_append ?_ (segInv_lit (lit ": ") (by decide))
  refine segInv_append ?_ (segInv_jquote (lit "role"))
  exact segInv_lit (lit "\n      ") (by decide)

theorem segInv_serializeMsgs (ms : List MsgB) : SegInv (serializeMsgs ms) := by
  cases ms with
  | nil =>
    exact segInv_wrap jstep_open_bracket jstep_close_bracket segInv_nil
  | cons m ms =>
    show SegInv ('[' :: (_ ++ [']']))
    refine segInv_wrap jstep_open_bracket jstep_close_bracket ?_
    refine segInv_append ?_ (segInv_lit (lit "\n  ") (by decide))
    refine segInv_append (segInv_lit (lit "\n") (by decide)) ?_
    refine segInv_joinSep _ (segInv_lit (lit ",\n") (by decide)) _ ?_
    intro p hp
    obtain ⟨x, _, hx⟩ := List.mem_map.mp hp
    exact hx ▸ segInv_serializeMsg x

theorem segInv_chatBodyChars (r : ChatRecB) : SegInv (chatBodyChars r) := by
  unfold chatBodyChars
  refine segInv_append ?_ (segInv_lit (lit "\n") (by decide))
  refine segInv_append ?_ (segInv_jquote r.last_modified)
  refine segInv_append ?_ (segInv_lit (lit ": ") (by decide))
  refine segInv_append ?_ (segInv_jquote (lit "last_modified"))
  refine segInv_append ?_ (segInv_lit (lit ",\n  ") (by decide))
  refine segInv_append ?_ (segInv_jquote r.created)
  refine segInv_append ?_ (segInv_lit (lit ": ") (by decide))
  refine segInv_append ?_ (segInv_jquote (lit "created"))
  refine segInv_append ?_ (segInv_lit (lit ",\n  ") (by decide))
  refine segInv_append ?_ (segInv_serializeMsgs r.messages)
  refine segInv_append ?_ (segInv_lit (lit ": ") (by decide))
  refine segInv_append ?_ (segInv_jquote (lit "messages"))
  refine segInv_append ?_ (segInv_lit (lit ",\n  ") (by decide))
  refine segInv_append ?_ (segInv_jquote r.id)
  refine segInv_append ?_ (segInv_lit (lit ": ") (by decide))
  refine segInv_append (segInv_lit (lit "\n  ") (by decide)) (segInv_jquote (lit "id"))

theorem jsonCompleteTop_cons (c : Char) (l : List Char) :
    jsonCompleteTop (c :: l) =
      (decide (c = '\x7b') &&
        decide ((jscan ⟨0, false, false⟩ (c :: l)).depth = 0) &&
        !(jscan ⟨0, false, false⟩ (c :: l)).inStr) := rfl

/-- The full dump passes the completeness check. -/
theorem serializeChat_complete (r : ChatRecB) :
    jsonCompleteTop (serializeChat r) = true := by
  have h := segInv_chatBodyChars r
  show jsonCompleteTop ('\x7b' :: (chatBodyChars r ++ ['\x7d'])) = true
  rw [jsonCompleteTop_cons]
  have hfin : jscan ⟨0, false, false⟩ ('\x7b' :: (chatBodyChars r ++ ['\x7d'])) =
      ⟨0, false, false⟩ := by
    rw [jscan_cons, jstep_open_brace, jscan_append, (h 1).1]
    show jstep ⟨0 + 1, false, false⟩ '\x7d' = _
    exact jstep_close_brace 0
  rw [hfin]
  rfl

/-- No strict prefix of the dump passes the completeness check. -/
theorem serializeChat_take_incomplete (r : ChatRecB) (k : Nat)
    (hk : k < (serializeChat r).length) :
    jsonCompleteTop ((serializeChat r).take k) = false := by
  have h := segInv_chatBodyChars r
  cases k with
  | zero => rfl
  | succ k =>
    have hts : (serializeChat r).take (k + 1) =
        '\x7b' :: (chatBodyChars r ++ ['\x7d']).take k := by
      show ('\x7b' :: (chatBodyChars r ++ ['\x7d'])).take (k + 1) = _
      rw [List.take_succ_cons]
    have hklen : k ≤ (chatBodyChars r).length := by
      have hlen : (serializeChat r).length = (chatBodyChars r).length + 2 := by
        show ('\x7b' :: (chatBodyChars r ++ ['\x7d'])).length = _
        simp
      omega
    have htk : (chatBodyChars r ++ ['\x7d']).take k = (chatBodyChars r).take k := by
      rw [List.take_append_eq_append_take]
      have h0 : k - (chatBodyChars r).length = 0 := by omega
      rw [h0]
      simp
    rw [hts, htk, jsonCompleteTop_cons]
    have hstep : jscan ⟨0, false, false⟩ ('\x7b' :: (chatBodyChars r).take k) =
        jscan ⟨1, false, false⟩ ((chatBodyChars r).take k) := by
      rw [jscan_cons, jstep_open_brace]
    rcases (h 1).2 k (by omega) with hdep | hstr
    · have hne : (jscan ⟨1, false, false⟩ ((chatBodyChars r).take k)).depth ≠ 0 := by
        omega
      simp [hstep, hne]
    · simp [hstep, hstr]

theorem storeGet_storeSet_self (s : Store) (k : String) (v : FileJson) :
    storeGet (storeSet s k v) k = some v := by
  induction s with
  | nil => simp [storeSet, storeGet]
  | cons kv rest ih =>
    obtain ⟨k0, v0⟩ := kv
    by_cases hk : k0 = k
    · subst hk
      simp [storeSet, storeGet]
    · simp only [storeSet, if_neg hk]
      simpa [storeGet, List.find?, hk] using ih

/-- A sequence of `add_message` calls; each item is `(role, content, t)`
with `t` standing for the `datetime.now()` instants of that call. -/
def runAppends (hs : ChatHistory × Store)
    (items : List (String × String × DateTime)) : ChatHistory × Store :=
  items.foldl (fun acc it => add_message acc.1 acc.2 it.1 it.2.1 it.2.2 it.2.2 it.2.2) hs

/-- The message dict an item of `runAppends` appends. -/
def itemMsg (it : String × String × DateTime) : Json :=
  msgObj it.1 it.2.1 it.2.2

theorem add_message_hist (h : ChatHistory) (s : Store) (role content : String)
    (tM tc tm : DateTime) :
    (add_message h s role content tM tc tm).1 =
      ⟨h.current_chat_id, h.current_chat ++ [msgObj role content tM]⟩ := rfl

theorem runAppends_hist (items : List (String × String × DateTime)) :
    ∀ hs : ChatHistory × Store,
      (runAppends hs items).1.current_chat_id = hs.1.current_chat_id ∧
      (runAppends hs items).1.current_chat =
        hs.1.current_chat ++ items.map itemMsg := by
  induction items with
  | nil => intro hs; simp [runAppends]
  | cons it rest ih =>
    intro hs
    have hstep : runAppends hs (it :: rest) =
        runAppends (add_message hs.1 hs.2 it.1 it.2.1 it.2.2 it.2.2 it.2.2) rest := rfl
    rw [hstep]
    obtain ⟨h1, h2⟩ := ih (add_message hs.1 hs.2 it.1 it.2.1 it.2.2 it.2.2 it.2.2)
    refine ⟨by rw [h1]; rfl, ?_⟩
    rw [h2, add_message_hist]
    simp [itemMsg]

theorem runAppends_concat (hs : ChatHistory × Store)
    (items : List (String × String × DateTime)) (it : String × String × DateTime) :
    runAppends hs (items ++ [it]) =
      add_message (runAppends hs items).1 (runAppends hs items).2
        it.1 it.2.1 it.2.2 it.2.2 it.2.2 := by
  unfold runAppends
  rw [List.foldl_append]
  rfl

theorem load_chat_of_record (hx : ChatHistory) (s : Store) (id : String)
    (idv : Json) (msgs : List Json) (tc tm : DateTime)
    (hsg : storeGet s id = some (.ok (recordJson idv msgs tc tm))) :
    load_chat hx s id = (⟨some idv, msgs⟩, true) := by
  unfold load_chat
  rw [hsg]
  rfl

theorem filter_orderedInsert {α : Type} (r : α → α → Prop) [DecidableRel r]
    (p : α → Bool) (hside : ∀ x y, ¬ r x y → p x = true → p y = false) (a : α) :
    ∀ l, (List.orderedInsert r a l).filter p = ((a :: l).filter p) := by
  intro l
  induction l with
  | nil => rfl
  | cons b l ih =>
    rw [List.orderedInsert]
    by_cases hr : r a b
    · rw [if_pos hr]
    · rw [if_neg hr]
      by_cases hpa : p a = true
      · have hpb := hside a b hr hpa
        simp [List.filter_cons, hpb, hpa, ih]
      · have hpa2 : p a = false := by
          cases hpv : p a
          · rfl
          · exact absurd hpv hpa
        simp [List.filter_cons, hpa2, ih]

theorem filter_insertionSort {α : Type} (r : α → α → Prop) [DecidableRel r]
    (p : α → Bool) (hside : ∀ x y, ¬ r x y → p x = true → p y = false) :
    ∀ l, (List.insertionSort r l).filter p = l.filter p := by
  intro l
  induction l with
  | nil => rfl
  | cons x l ih =>
    rw [List.insertionSort, filter_orderedInsert r p hside]
    simp [List.filter_cons, ih]

/-- A well-formed chat message as `add_message` persists it (all three
fields are strings). -/
structure MsgT where
  role : String
  content : String
  timestamp : String

/-- The decoded form of such a message. -/
def msgT2Json (m : MsgT) : Json :=
  .obj [("role", .str m.role), ("content", .str m.content),
        ("timestamp", .str m.timestamp)]

/-- Claim-side shape for C10: a wire message carrying role and content
only. -/
def roleContentOnly (m : MsgT) : Json :=
  .obj [("role", .str m.role), ("content", .str m.content)]

/-- Claim-side title rule for C6 (as amended): the stripped content of the
first `user` message, truncated to 27 characters plus `"..."` when the
stripped content exceeds 30 characters; placeholder when there is no user
message. -/
def titleSpec (msgs : List MsgT) : String :=
  match msgs.find? (fun m => m.role == "user") with
  | none => "新聊天"
  | some m =>
    let t := pyStrip m.content
    if t.length > 30 then String.mk (t.data.take 27) ++ "..." else t

theorem jsonToOpt_of_ne_null {c : Json} (h : c ≠ .null) : jsonToOpt c = some c := by
  cases c <;> simp [jsonToOpt] at h ⊢

theorem chatBody_cases (data : Json) :
    (∃ c, extractContent data = .ok (some c) ∧ c ≠ .null ∧
        chatBody data = (some c, none)) ∨
    (extractContent data = .ok (some .null) ∧ chatBody data = (none, none)) ∨
    (extractContent data = .ok none ∧
        chatBody data = (none, some "API响应中没有找到回复内容")) ∨
    (∃ e, extractContent data = .error e ∧
        chatBody data = (none, some "未知错误: <exception>")) := by
  cases hx : extractContent data with
  | ok oc =>
    cases oc with
    | some c =>
      by_cases hc : c = Json.null
      · subst hc
        exact Or.inr (Or.inl ⟨rfl, by simp [chatBody, hx, jsonToOpt]⟩)
      · exact Or.inl ⟨c, rfl, hc, by simp [chatBody, hx, jsonToOpt_of_ne_null hc]⟩
    | none =>
      exact Or.inr (Or.inr (Or.inl ⟨rfl, by simp [chatBody, hx]⟩))
  | error e =>
    exact Or.inr (Or.inr (Or.inr ⟨e, rfl, by simp [chatBody, hx]⟩))

/-- Claim C4 (counterexample): a 200 response whose first choice carries
`"content": null` makes `DeepSeekClient.chat` return `(None, None)` — the
claimed "exactly one of content or error" fails: neither is present. -/
theorem C4_cex_null_content :
    ¬ (((chat [] (.ok (.obj [("choices",
          .arr [.obj [("message", .obj [("content", .null)])]])]))).1.isSome = true ∧
        (chat [] (.ok (.obj [("choices",
          .arr [.obj [("message", .obj [("content", .null)])]])]))).2.isNone = true) ∨
       ((chat [] (.ok (.obj [("choices",
          .arr [.obj [("message", .obj [("content", .null)])]])]))).1.isNone = true ∧
        (chat [] (.ok (.obj [("choices",
          .arr [.obj [("message", .obj [("content", .null)])]])]))).2.isSome = true)) := by
  decide

/-- Claim C4 (amended): `DeepSeekClient.chat` never returns both a content
and an error; it returns neither exactly when the HTTP call succeeds with a
body whose extracted `choices[0].message.content` is JSON `null` (decoded
to Python `None`); in every other case exactly one side is present — in
particular a body without a `choices` key yields the protocol-shape error,
a non-success status yields an error carrying the numeric status and raw
body, and a transport failure yields the transport error. -/
theorem C4_send_result_amended (msgs : List Json) (o : HttpOutcome) :
    (¬ ((chat msgs o).1.isSome = true ∧ (chat msgs o).2.isSome = true)) ∧
    (((chat msgs o).1.isNone = true ∧ (chat msgs o).2.isNone = true) ↔
      (∃ data, o = .ok data ∧ extractContent data = .ok (some .null))) ∧
    (∀ data, o = .ok data → pyContains "choices" data = .ok false →
      chat msgs o = (none, some "API响应中没有找到回复内容")) ∧
    (∀ st text, o = .statusError st text →
      chat msgs o = (none, some ("API错误: " ++ toString st ++ " - " ++ text))) ∧
    (∀ d, o = .requestError d →
      chat msgs o = (none, some ("网络请求错误: " ++ d))) := by
  cases o with
  | ok data =>
    have hcb : chat msgs (.ok data) = chatBody data := rfl
    rcases chatBody_cases data with ⟨c, hx, hc, hb⟩ | ⟨hx, hb⟩ | ⟨hx, hb⟩ | ⟨e, hx, hb⟩
    · refine ⟨?_, ?_, ?_, ?_, ?_⟩
      · rw [hcb, hb]; simp
      · rw [hcb, hb]
        constructor
        · simp
        · rintro ⟨d2, hd2, hex2⟩
          cases hd2
          rw [hx] at hex2
          simp at hex2
          exact absurd hex2 hc
      · intro d2 hd2 hcc
        cases hd2
        have : extractContent data = .ok none := by
          unfold extractContent
          rw [hcc]
          rfl
        rw [hx] at this
        simp at this
      · intro st text h; cases h
      · intro d h; cases h
    · refine ⟨?_, ?_, ?_, ?_, ?_⟩
      · rw [hcb, hb]; simp
      · rw [hcb, hb]
        constructor
        · intro _
          exact ⟨data, rfl, hx⟩
        · intro _
          simp
      · intro d2 hd2 hcc
        cases hd2
        have : extractContent data = .ok none := by
          unfold extractContent
          rw [hcc]
          rfl
        rw [hx] at this
        simp at this
      · intro st text h; cases h
      · intro d h; cases h
    · refine ⟨?_, ?_, ?_, ?_, ?_⟩
      · rw [hcb, hb]; simp
      · rw [hcb, hb]
        constructor
        · simp
        · rintro ⟨d2, hd2, hex2⟩
          cases hd2
          rw [hx] at hex2
          simp at hex2
      · intro d2 hd2 hcc
        cases hd2
        rw [hcb, hb]
      · intro st text h; cases h
      · intro d h; cases h
    · refine ⟨?_, ?_, ?_, ?_, ?_⟩
      · rw [hcb, hb]; simp
      · rw [hcb, hb]
        constructor
        · simp
        · rintro ⟨d2, hd2, hex2⟩
          cases hd2
          rw [hx] at hex2
          simp at hex2
      · intro d2 hd2 hcc
        cases hd2
        have hok : extractContent data = .ok none := by
          unfold extractContent
          rw [hcc]
          rfl
        rw [hx] at hok
        simp at hok
      · intro st text h; cases h
      · intro d h; cases h
  | badJson desc =>
    refine ⟨by simp [chat], ?_, ?_, ?_, ?_⟩
    · simp [chat]
    · intro d h; cases h
    · intro st text h; cases h
    · intro d h; cases h
  | statusError st text =>
    refine ⟨by simp [chat], ?_, ?_, ?_, ?_⟩
    · simp [chat]
    · intro d h; cases h
    · intro st2 text2 h
      cases h
      rfl
    · intro d h; cases h
  | requestError desc =>
    refine ⟨by simp [chat], ?_, ?_, ?_, ?_⟩
    · simp [chat]
    · intro d h; cases h
    · intro st text h; cases h
    · intro d h
      cases h
      rfl
  | otherFailure desc =>
    refine ⟨by simp [chat], ?_, ?_, ?_, ?_⟩
    · simp [chat]
    · intro d h; cases h
    · intro st text h; cases h
    · intro d h; cases h

/-- Witness for C4 (amended) at concrete inputs: a 401 yields the status
error with code and body, a connection failure yields the transport error,
and a body with no `choices` key yields the protocol-shape error. -/
theorem C4_send_result_amended_witness :
    chat [] (.statusError 401 "Unauthorized") =
      (none, some "API错误: 401 - Unauthorized") ∧
    chat [] (.requestError "connect timeout") =
      (none, some "网络请求错误: connect timeout") ∧
    chat [] (.ok (.obj [("result", .str "x")])) =
      (none, some "API响应中没有找到回复内容") :=
  ⟨(C4_send_result_amended [] (.statusError 401 "Unauthorized")).2.2.2.1
      401 "Unauthorized" rfl,
   (C4_send_result_amended [] (.requestError "connect timeout")).2.2.2.2
      "connect timeout" rfl,
   (C4_send_result_amended [] (.ok (.obj [("result", .str "x")]))).2.2.1
      (.obj [("result", .str "x")]) rfl rfl⟩

theorem computeTitle_spec (msgs : List MsgT) :
    computeTitle (msgs.map msgT2Json) = .ok (titleSpec msgs) := by
  induction msgs with
  | nil => rfl
  | cons m rest ih =>
    have hrole : pySubscript (msgT2Json m) "role" = .ok (.str m.role) := rfl
    show computeTitle (msgT2Json m :: rest.map msgT2Json) = _
    by_cases hm : m.role = "user"
    · have h1 : jsonIsStr (.str m.role) "user" = true := by simp [jsonIsStr, hm]
      have h2 : pySubscript (msgT2Json m) "content" = .ok (.str m.content) := rfl
      simp only [computeTitle, hrole, h1, if_true, h2]
      have h3 : (fun x : MsgT => x.role == "user") m = true := by simp [hm]
      simp only [titleSpec, List.find?, h3, truncTitle]
    · have h1 : jsonIsStr (.str m.role) "user" = false := by simp [jsonIsStr, hm]
      have h3 : (fun x : MsgT => x.role == "user") m = false := by simp [hm]
      simp only [computeTitle, hrole, h1, if_false, Bool.false_eq_true]
      rw [ih]
      simp only [titleSpec, List.find?, h3]

theorem titleSpec_le_30 (msgs : List MsgT) : (titleSpec msgs).length ≤ 30 := by
  unfold titleSpec
  cases hf : msgs.find? (fun m => m.role == "user") with
  | none => decide
  | some m =>
    simp only []
    by_cases h : (pyStrip m.content).length > 30
    · rw [if_pos h]
      have h27 : (String.mk ((pyStrip m.content).data.take 27)).length ≤ 27 := by
        show ((pyStrip m.content).data.take 27).length ≤ 27
        exact List.length_take_le 27 (pyStrip m.content).data
      have hdots : ("..." : String).length = 3 := rfl
      have : (String.mk ((pyStrip m.content).data.take 27) ++ "...").length =
          (String.mk ((pyStrip m.content).data.take 27)).length + 3 := by
        rw [String.length_append, hdots]
      omega
    · rw [if_neg h]
      omega

/-- Claim C6 (counterexample): the title is not the raw content of the
first user message — `get_chat_list` strips it first: content `" hi"`
yields title `"hi"`. -/
theorem C6_cex_title_strip :
    computeTitle [msgT2Json ⟨"user", " hi", "2024-01-01T00:00:00"⟩] ≠
      Except.ok " hi" := by
  intro h
  rw [show computeTitle [msgT2Json ⟨"user", " hi", "2024-01-01T00:00:00"⟩] =
      Except.ok "hi" from rfl] at h
  have := Except.ok.inj h
  exact absurd this (by decide)

/-- Claim C6 (amended): for every message sequence the title computed by
`get_chat_list` is the *whitespace-stripped* content of the first message
with role `user` — truncated to its first 27 characters plus the
3-character marker `"..."` (total exactly 30) when the stripped content
exceeds 30 characters — and the fixed placeholder `"新聊天"` when no user
message exists; the title never exceeds 30 characters. -/
theorem C6_title_amended (msgs : List MsgT) :
    computeTitle (msgs.map msgT2Json) = .ok (titleSpec msgs) ∧
    (titleSpec msgs).length ≤ 30 :=
  ⟨computeTitle_spec msgs, titleSpec_le_30 msgs⟩

/-- Claim C7 (code bug): selecting a session whose record parses and has an
`id` field but no `messages` field is reported as a failure (`False`), yet
`ChatHistory.load_chat` has already overwritten `current_chat_id` with the
record's id, leaving the previous id lost while the old message list is
kept — the active session is *not* left unchanged. -/
theorem C7_select_failure_mutates_id :
    (let h0 : ChatHistory := ⟨some (.str "20240101_000000"),
        [msgT2Json ⟨"user", "old", "2024-01-01T00:00:00"⟩]⟩
     let st : Store := [("broken", FileJson.ok (.obj [("id", .str "broken")]))]
     let L := load_chat h0 st "broken"
     L.2 = false ∧
     Option.map pyToStr L.1.current_chat_id = some "broken" ∧
     Option.map pyToStr h0.current_chat_id = some "20240101_000000" ∧
     Option.map pyToStr L.1.current_chat_id ≠ Option.map pyToStr h0.current_chat_id ∧
     L.1.current_chat = h0.current_chat) :=
  ⟨rfl, rfl, rfl, by decide, rfl⟩

/-- The `created` field of a persisted record, when it is a string. -/
def recCreated : FileJson → Option String
  | .ok j =>
    match jGet j "created" with
    | some (.str s) => some s
    | _ => none
  | .bad => none

/-- Claim C9 (code bug): `save_chat` writes `"created": datetime.now()` on
*every* save, so an append re-stamps the persisted `created` field — after
a second append one second later the record's `created` differs from the
value persisted by the first append, contradicting the claim that only the
message sequence and `last_modified` change. -/
theorem C9_created_restamped :
    (let t1 : DateTime := ⟨2024, 1, 1, 0, 0, 0, 0⟩
     let t2 : DateTime := ⟨2024, 1, 1, 0, 0, 1, 0⟩
     let s1 := add_message ⟨some (.str "c1"), []⟩ [] "user" "hi" t1 t1 t1
     let s2 := add_message s1.1 s1.2 "assistant" "yo" t2 t2 t2
     ((storeGet s1.2 "c1").bind recCreated = some "2024-01-01T00:00:00") ∧
     ((storeGet s2.2 "c1").bind recCreated = some "2024-01-01T00:00:01") ∧
     ("2024-01-01T00:00:01" ≠ "2024-01-01T00:00:00")) :=
  ⟨rfl, rfl, by decide⟩

/-- Claim C10 (counterexample): the request body does *not* carry the
history messages as role and content only — each wire message is the
stored dict verbatim, `timestamp` included. -/
theorem C10_cex_timestamp_on_wire :
    jGet (buildPayload [msgT2Json ⟨"user", "hi", "2024-01-01T00:00:00"⟩])
        "messages" ≠
      some (.arr [roleContentOnly ⟨"user", "hi", "2024-01-01T00:00:00"⟩]) ∧
    pyContains "timestamp" (msgT2Json ⟨"user", "hi", "2024-01-01T00:00:00"⟩) =
      .ok true := by
  constructor
  · intro h
    rw [show jGet (buildPayload [msgT2Json ⟨"user", "hi", "2024-01-01T00:00:00"⟩])
          "messages" =
        some (.arr [msgT2Json ⟨"user", "hi", "2024-01-01T00:00:00"⟩]) from rfl] at h
    simp [msgT2Json, roleContentOnly] at h
  · rfl

/-- Claim C10 (amended): the request body `DeepSeekClient.chat` builds
carries the history messages verbatim — each wire message keeps its
`role`, `content` *and* `timestamp` fields — together with the fixed model
identifier `"deepseek-chat"` and the fixed sampling parameters
`temperature` 0.7, `max_tokens` 2000, `stream` false. -/
theorem C10_payload_amended (msgs : List MsgT) :
    jGet (buildPayload (msgs.map msgT2Json)) "messages" =
      some (.arr (msgs.map msgT2Json)) ∧
    (∀ m ∈ msgs, pyContains "role" (msgT2Json m) = .ok true ∧
      pyContains "content" (msgT2Json m) = .ok true ∧
      pyContains "timestamp" (msgT2Json m) = .ok true) ∧
    jGet (buildPayload (msgs.map msgT2Json)) "model" =
      some (.str "deepseek-chat") ∧
    jGet (buildPayload (msgs.map msgT2Json)) "temperature" =
      some (.num (7 / 10)) ∧
    jGet (buildPayload (msgs.map msgT2Json)) "max_tokens" = some (.num 2000) ∧
    jGet (buildPayload (msgs.map msgT2Json)) "stream" = some (.bool false) := by
  refine ⟨rfl, ?_, rfl, rfl, rfl, rfl⟩
  intro m _
  exact ⟨rfl, rfl, rfl⟩

/-- Witness for C10 (amended) at a one-message history. -/
theorem C10_payload_amended_witness :
    jGet (buildPayload [msgT2Json ⟨"user", "hi", "2024-01-01T00:00:00"⟩])
        "messages" =
      some (.arr [msgT2Json ⟨"user", "hi", "2024-01-01T00:00:00"⟩]) ∧
    pyContains "timestamp" (msgT2Json ⟨"user", "hi", "2024-01-01T00:00:00"⟩) =
      .ok true :=
  ⟨(C10_payload_amended [⟨"user", "hi", "2024-01-01T00:00:00"⟩]).1,
   ((C10_payload_amended [⟨"user", "hi", "2024-01-01T00:00:00"⟩]).2.1
      ⟨"user", "hi", "2024-01-01T00:00:00"⟩ (List.mem_singleton.mpr rfl)).2.2⟩

theorem charListLt_irrefl : ∀ a : List Char, charListLt a a = false
  | [] => rfl
  | c :: as => by
    simp only [charListLt, lt_irrefl, if_false]
    exact charListLt_irrefl as

theorem charListLt_trans :
    ∀ a b c : List Char, charListLt a b = true → charListLt b c = true →
      charListLt a c = true
  | a, [], _, hab, _ => by cases a <;> simp [charListLt] at hab
  | [], _ :: _, [], _, hbc => by simp [charListLt] at hbc
  | [], _ :: _, _ :: _, _, _ => rfl
  | _ :: _, _ :: _, [], _, hbc => by simp [charListLt] at hbc
  | x :: as, y :: bs, z :: cs, hab, hbc => by
    simp only [charListLt] at hab hbc ⊢
    by_cases hxy : x.toNat < y.toNat
    · by_cases hyz : y.toNat < z.toNat
      · have : x.toNat < z.toNat := by omega
        simp [this]
      · rw [if_pos hxy] at hab
        rw [if_neg hyz] at hbc
        by_cases hzy : z.toNat < y.toNat
        · simp [hzy] at hbc
        · have : y.toNat = z.toNat := by omega
          have hxz : x.toNat < z.toNat := by omega
          simp [hxz]
    · rw [if_neg hxy] at hab
      by_cases hyx : y.toNat < x.toNat
      · simp [hyx] at hab
      · have hxyeq : x.toNat = y.toNat := by omega
        by_cases hyz : y.toNat < z.toNat
        · have : x.toNat < z.toNat := by omega
          simp [this]
        · rw [if_neg hyz] at hbc
          by_cases hzy : z.toNat < y.toNat
          · simp [hzy] at hbc
          · have hxz1 : ¬ x.toNat < z.toNat := by omega
            have hxz2 : ¬ z.toNat < x.toNat := by omega
            rw [if_neg hxz1, if_neg hxz2]
            rw [if_neg (by omega : ¬ y.toNat < x.toNat)] at hab
            rw [if_neg (by omega : ¬ z.toNat < y.toNat)] at hbc
            exact charListLt_trans as bs cs hab hbc

theorem charListLt_eq_of_not :
    ∀ a b : List Char, charListLt a b = false → charListLt b a = false → a = b
  | [], [], _, _ => rfl
  | [], _ :: _, hab, _ => by simp [charListLt] at hab
  | _ :: _, [], _, hba => by simp [charListLt] at hba
  | x :: as, y :: bs, hab, hba => by
    simp only [charListLt] at hab hba
    by_cases hxy : x.toNat < y.toNat
    · simp [hxy] at hab
    · by_cases hyx : y.toNat < x.toNat
      · simp [hyx] at hba
      · have hx : x = y := by
          have h3 : x.toNat = y.toNat := by omega
          exact Char.ext (UInt32.ext h3)
        rw [if_neg hxy, if_neg hyx] at hab
        rw [if_neg hyx, if_neg hxy] at hba
        rw [hx, charListLt_eq_of_not as bs hab hba]

theorem pyStrLeB_total (a b : String) :
    pyStrLeB a b = true ∨ pyStrLeB b a = true := by
  unfold pyStrLeB pyStrLtB
  by_cases h1 : charListLt b.data a.data = true
  · by_cases h2 : charListLt a.data b.data = true
    · have := charListLt_trans _ _ _ h1 h2
      rw [charListLt_irrefl] at this
      cases this
    · right
      simp only [Bool.not_eq_true] at h2
      simp [h2]
  · left
    simp only [Bool.not_eq_true] at h1
    simp [h1]

theorem pyStrLeB_trans {a b c : String}
    (h1 : pyStrLeB a b = true) (h2 : pyStrLeB b c = true) :
    pyStrLeB a c = true := by
  unfold pyStrLeB pyStrLtB at h1 h2 ⊢
  simp only [Bool.not_eq_eq_eq_not, Bool.not_true, Bool.not_eq_true] at h1 h2 ⊢
  by_cases hca : charListLt c.data a.data = true
  · by_cases hab : charListLt a.data b.data = true
    · have := charListLt_trans _ _ _ hca hab
      rw [h2] at this
      cases this
    · simp only [Bool.not_eq_true] at hab
      have hac : a.data = b.data := charListLt_eq_of_not _ _ hab h1
      rw [← hac] at h2
      rw [h2] at hca
      cases hca
  · simpa using hca

/-- The ordering claimed for the summary list: `modified` descending with
ties broken by identifier descending. -/
def c5ClaimSorted : List ChatSummary → Bool
  | [] => true
  | [_] => true
  | a :: b :: rest =>
    (pyStrLtB b.modified a.modified ||
      (b.modified == a.modified && pyStrLtB (pyToStr b.id) (pyToStr a.id))) &&
    c5ClaimSorted (b :: rest)

/-- A persisted record with one user message (for concrete listings). -/
def sampleRec (idv mod : String) : FileJson :=
  .ok (.obj [("id", .str idv),
    ("messages", .arr [.obj [("role", .str "user"), ("content", .str "m"),
      ("timestamp", .str "2024-01-01T00:00:00")]]),
    ("created", .str "2024-01-01T00:00:00"), ("last_modified", .str mod)])

/-- Claim C5 (counterexample): ties in modified time are *not* broken by
identifier descending — Python's `sorted(..., reverse=True)` is stable, so
two records with equal formatted `last_modified` keep directory-enumeration
order; with the smaller id enumerated first, the listing comes back
id-ascending, refuting the claimed tie-break. -/
theorem C5_cex_tie_not_id_desc :
    c5ClaimSorted (get_chat_list
      [("20240101_000000", sampleRec "20240101_000000" "2024-03-01T10:00:00"),
       ("20240102_000000", sampleRec "20240102_000000" "2024-03-01T10:00:00")]) =
      false ∧
    (get_chat_list
      [("20240101_000000", sampleRec "20240101_000000" "2024-03-01T10:00:00"),
       ("20240102_000000", sampleRec "20240102_000000" "2024-03-01T10:00:00")]).map
        (fun s => pyToStr s.id) =
      ["20240101_000000", "20240102_000000"] :=
  ⟨rfl, rfl⟩

/-- Claim C5 (amended): `get_chat_list` returns the summaries sorted by the
formatted (minute-resolution) `last_modified` string, descending; records
with equal keys keep directory-enumeration order (Python's sort is stable):
the sub-sequence of summaries with any fixed `modified` value equals the
corresponding sub-sequence of the unsorted per-file summaries.  Three
sessions whose formatted keys are strictly increasing therefore come back
most-recent first. -/
theorem C5_listing_sort_amended (files : Store) :
    List.Sorted (fun a b : ChatSummary => pyStrLeB b.modified a.modified = true)
      (get_chat_list files) ∧
    ∀ m : String,
      (get_chat_list files).filter (fun s => s.modified == m) =
        ((files : List (String × FileJson)).filterMap
          (fun kv => summarize kv.2)).filter (fun s => s.modified == m) := by
  constructor
  · unfold get_chat_list pySortedRev
    letI : IsTotal ChatSummary
        (fun a b : ChatSummary => pyStrLeB b.modified a.modified = true) :=
      ⟨fun a b => pyStrLeB_total b.modified a.modified⟩
    letI : IsTrans ChatSummary
        (fun a b : ChatSummary => pyStrLeB b.modified a.modified = true) :=
      ⟨fun _ _ _ hab hbc => pyStrLeB_trans hbc hab⟩
    exact List.sorted_insertionSort _ _
  · intro m
    unfold get_chat_list pySortedRev
    refine filter_insertionSort _ _ ?_ _
    intro x y hr hx
    have hlt : pyStrLtB x.modified y.modified = true := by
      unfold pyStrLeB at hr
      simpa using hr
    have hxm : x.modified = m := by simpa using hx
    have hy : y.modified ≠ m := by
      intro he
      rw [he, ← hxm] at hlt
      unfold pyStrLtB at hlt
      rw [charListLt_irrefl] at hlt
      cases hlt
    simpa using hy

theorem add_message_store_of_id (h : ChatHistory) (s : Store) (id : String)
    (hid : id ≠ "") (hcid : h.current_chat_id = some (.str id))
    (role content : String) (tM tc tm : DateTime) :
    (add_message h s role content tM tc tm).2 =
      storeSet s id (.ok (recordJson (.str id)
        (h.current_chat ++ [msgObj role content tM]) tc tm)) := by
  show save_chat ⟨h.current_chat_id, h.current_chat ++ [msgObj role content tM]⟩ s tc tm = _
  rw [hcid]
  unfold save_chat
  have h1 : pyTruthy (.str id) = true := by simpa [pyTruthy] using hid
  have h2 : (h.current_chat ++ [msgObj role content tM]).isEmpty = false := by
    simp
  simp only [h1, h2]
  rfl

/-- Claim C3: persistence round-trip — after a session is created and a
non-empty sequence of messages is appended via `add_message` (each append
auto-saving), `load_chat` of that session id succeeds and restores exactly
the session id and all appended messages, roles and contents preserved, in
append order. -/
theorem C3_roundtrip_load_after_appends (id : String) (hid : id ≠ "")
    (s0 : Store) (items : List (String × String × DateTime)) (hne : items ≠ [])
    (hx : ChatHistory) :
    load_chat hx (runAppends (⟨some (.str id), []⟩, s0) items).2 id =
      (⟨some (.str id), items.map itemMsg⟩, true) := by
  rcases List.eq_nil_or_concat items with hcase | ⟨L, b, rfl⟩
  · exact absurd hcase hne
  · rw [List.concat_eq_append, runAppends_concat]
    obtain ⟨hmid1, hmid2⟩ := runAppends_hist L (⟨some (.str id), []⟩, s0)
    rw [add_message_store_of_id _ _ id hid (by rw [hmid1])]
    have hchat : (runAppends (⟨some (Json.str id), []⟩, s0) L).1.current_chat ++
        [msgObj b.1 b.2.1 b.2.2] = (L ++ [b]).map itemMsg := by
      rw [hmid2]
      simp [itemMsg]
    rw [hchat]
    exact load_chat_of_record hx _ id (.str id) ((L ++ [b]).map itemMsg) _ _
      (storeGet_storeSet_self _ id _)

/-- Witness for C3 at a one-append run. -/
theorem C3_roundtrip_load_after_appends_witness :
    load_chat ⟨none, []⟩
      (runAppends (⟨some (.str "20240101_000000"), []⟩, [])
        [("user", "hi", ⟨2024, 1, 1, 0, 0, 0, 0⟩)]).2 "20240101_000000" =
      (⟨some (.str "20240101_000000"),
        [itemMsg ("user", "hi", ⟨2024, 1, 1, 0, 0, 0, 0⟩)]⟩, true) :=
  C3_roundtrip_load_after_appends "20240101_000000" (by decide) []
    [("user", "hi", ⟨2024, 1, 1, 0, 0, 0, 0⟩)] (by simp) ⟨none, []⟩

/-- Claim C2 (counterexample): `save_chat` opens the file with mode `"w"`
(truncating it) and then writes the new serialization in place — no
temporary file, no atomic rename.  Mid-write an observer sees a strict
prefix of the new serialization (here, just `"\x7b"`), which is neither
the previous complete record nor the new complete record, so "either the
previous complete record or the new complete record is observable" fails;
the torn state also fails the JSON-completeness check, so it does not load
as any valid record. -/
theorem C2_cex_torn_write :
    (let r1 : ChatRecB := ⟨lit "a", [], lit "c", lit "d"⟩
     let r2 : ChatRecB := ⟨lit "b", [], lit "e", lit "f"⟩
     let torn := (serializeChat r2).take 1
     torn ∈ saveObservables r2 ∧
     torn ≠ serializeChat r1 ∧
     torn ≠ serializeChat r2 ∧
     jsonCompleteTop torn = false) :=
  ⟨List.mem_map_of_mem _ (List.mem_range.mpr (by decide)),
   by decide, by decide, rfl⟩

/-- Claim C2 (amended): every append rewrites the record in place, and a
partially written record is never visible as a valid load — every strict
prefix of the bytes `save_chat` writes fails the JSON-completeness check
that `json.load` requires (a torn file is rejected and treated as
not-found/skipped), while the complete serialization passes it.  The
previous complete record, however, is not observable during the write
(the claimed previous-or-new alternative does not hold; see the
counterexample). -/
theorem C2_append_torn_never_loads (r : ChatRecB) (k : Nat)
    (hk : k < (serializeChat r).length) :
    jsonCompleteTop ((serializeChat r).take k) = false ∧
    jsonCompleteTop (serializeChat r) = true :=
  ⟨serializeChat_take_incomplete r k hk, serializeChat_complete r⟩

set_option maxRecDepth 8192 in
/-- Witness for C2 (amended) on a concrete record and cut point. -/
theorem C2_append_torn_never_loads_witness :
    jsonCompleteTop ((serializeChat ⟨lit "a",
      [⟨lit "user", lit "hi", lit "2024-01-01T00:00:00"⟩],
      lit "2024-01-01T00:00:00", lit "2024-01-01T00:00:00"⟩).take 42) = false ∧
    jsonCompleteTop (serializeChat ⟨lit "a",
      [⟨lit "user", lit "hi", lit "2024-01-01T00:00:00"⟩],
      lit "2024-01-01T00:00:00", lit "2024-01-01T00:00:00"⟩) = true :=
  C2_append_torn_never_loads _ 42 (by decide)

/-- Filenames match the `id` field of the record they hold — true of every
store produced by `save_chat`, which writes record `id` under
`f"{id}.json"`. -/
def wfStore (s : Store) : Prop :=
  ∀ k j, (k, FileJson.ok j) ∈ s → jGet j "id" = some (.str k)

theorem storeGet_eq_none_iff (s : Store) (k : String) :
    storeGet s k = none ↔ ∀ kv ∈ s, kv.1 ≠ k := by
  unfold storeGet
  cases hf : List.find? (fun kv => kv.1 = k) s with
  | none =>
    constructor
    · intro _ kv hkv
      have := List.find?_eq_none.mp hf kv hkv
      simpa using this
    · intro _
      rfl
  | some kv =>
    constructor
    · intro h
      simp at h
    · intro hall
      have h1 := List.find?_some hf
      have h2 := List.mem_of_find?_eq_some hf
      have h3 := hall kv h2
      simp at h1
      exact absurd h1 h3

theorem storeGet_storeDel_of_none (s : Store) (j k : String)
    (h : storeGet s k = none) : storeGet (storeDel s j) k = none := by
  rw [storeGet_eq_none_iff] at h ⊢
  intro kv hkv
  exact h kv (List.mem_of_mem_filter hkv)

theorem summarize_ok_id {j : Json} {s : ChatSummary}
    (h : summarize (.ok j) = some s) : jGet j "id" = some s.id := by
  unfold summarize at h
  rcases hm : jGet j "messages" with _ | msgsV
  · simp [hm] at h
  simp only [hm] at h
  rcases he : pyElems msgsV with e | msgs
  · simp [he] at h
  simp only [he] at h
  rcases ht : computeTitle msgs with e | title
  · simp [ht] at h
  simp only [ht] at h
  rcases hc : fromisoJson (jGetD j "created" (.str "2023-01-01T00:00:00")) with e | ct
  · simp [hc] at h
  simp only [hc] at h
  rcases hmo : fromisoJson (jGetD j "last_modified" (.str "2023-01-01T00:00:00")) with e | mt
  · simp [hmo] at h
  simp only [hmo] at h
  rcases hi : jGet j "id" with _ | idv
  · simp [hi] at h
  simp only [hi] at h
  rcases hl : pyLen msgsV with e | n
  · simp [hl] at h
  simp only [hl] at h
  obtain rfl := Option.some.inj h
  rfl

/-- Claim C8 (counterexample): deleting the active session creates the
replacement id from `datetime.now()` at second resolution — if the
deletion happens in the same second the active id encodes, the "new"
active session has the *same* id as the deleted one, refuting "id distinct
from activeId". -/
theorem C8_cex_same_second_id :
    (let a0 : AppState := ⟨⟨some (.str "20240101_000000"), []⟩,
       [("20240101_000000", sampleRec "20240101_000000" "2024-01-01T00:00:00")],
       some "20240101_000000"⟩
     let t : DateTime := ⟨2024, 1, 1, 0, 0, 0, 0⟩
     (on_chat_deleted a0 "20240101_000000" t).app_chat_id = a0.app_chat_id ∧
     a0.app_chat_id = some "20240101_000000") :=
  ⟨rfl, rfl⟩

/-- Claim C8 (amended): after `deleteSession(activeId)` succeeds, the
active session is a new empty session whose id is the deletion instant at
second resolution, it replaces the deleted one, and `listSummaries` no
longer contains `activeId` (filenames matching record ids); the new id is
distinct from `activeId` and unpersisted *provided* the deletion occurs in
a different second-resolution tick than `activeId` encodes and no other
session collides with that tick. -/
theorem C8_delete_active_amended (a : AppState) (activeId : String)
    (t : DateTime) (hwf : wfStore a.store)
    (hact : a.app_chat_id = some activeId)
    (hex : (storeGet a.store activeId).isSome = true)
    (hfresh : fmtId t ≠ activeId)
    (hnocol : storeGet a.store (fmtId t) = none) :
    (on_chat_deleted a activeId t).hist.current_chat = [] ∧
    (on_chat_deleted a activeId t).hist.current_chat_id =
      some (.str (fmtId t)) ∧
    (on_chat_deleted a activeId t).app_chat_id = some (fmtId t) ∧
    some (fmtId t) ≠ a.app_chat_id ∧
    storeGet (on_chat_deleted a activeId t).store (fmtId t) = none ∧
    ∀ s ∈ get_chat_list (on_chat_deleted a activeId t).store,
      pyToStr s.id ≠ activeId := by
  have hdel : delete_chat a.store activeId = (storeDel a.store activeId, true) := by
    simp [delete_chat, hex]
  have hocd : on_chat_deleted a activeId t =
      ⟨⟨some (.str (fmtId t)), []⟩, storeDel a.store activeId,
        some (fmtId t)⟩ := by
    unfold on_chat_deleted
    rw [hdel, hact]
    simp [new_chat]
  rw [hocd]
  refine ⟨rfl, rfl, rfl, ?_, ?_, ?_⟩
  · rw [hact]
    intro h
    exact hfresh (Option.some.inj h)
  · exact storeGet_storeDel_of_none _ _ _ hnocol
  · intro s hs
    have hs2 : s ∈ (storeDel a.store activeId).filterMap
        (fun kv => summarize kv.2) := by
      unfold get_chat_list pySortedRev at hs
      exact (List.mem_insertionSort _).mp hs
    obtain ⟨kv, hkv, hsum⟩ := List.mem_filterMap.mp hs2
    have hmem := List.mem_filter.mp hkv
    obtain ⟨k0, f0⟩ := kv
    cases f0 with
    | bad => simp [summarize] at hsum
    | ok j0 =>
      have hid := summarize_ok_id hsum
      have hwfj := hwf k0 j0 hmem.1
      rw [hwfj] at hid
      have hsid : Json.str k0 = s.id := Option.some.inj hid
      rw [← hsid]
      show k0 ≠ activeId
      simpa using hmem.2

/-- Witness for C8 (amended): one persisted session, deleted one day
later. -/
theorem C8_delete_active_amended_witness :
    (on_chat_deleted ⟨⟨some (.str "x"), []⟩,
      [("20240101_000000", sampleRec "20240101_000000" "2024-01-01T00:00:00")],
      some "20240101_000000"⟩ "20240101_000000"
        ⟨2024, 1, 2, 0, 0, 0, 0⟩).hist.current_chat = [] ∧
    (on_chat_deleted ⟨⟨some (.str "x"), []⟩,
      [("20240101_000000", sampleRec "20240101_000000" "2024-01-01T00:00:00")],
      some "20240101_000000"⟩ "20240101_000000"
        ⟨2024, 1, 2, 0, 0, 0, 0⟩).app_chat_id = some "20240102_000000" ∧
    storeGet (on_chat_deleted ⟨⟨some (.str "x"), []⟩,
      [("20240101_000000", sampleRec "20240101_000000" "2024-01-01T00:00:00")],
      some "20240101_000000"⟩ "20240101_000000"
        ⟨2024, 1, 2, 0, 0, 0, 0⟩).store "20240102_000000" = none := by
  have h := C8_delete_active_amended
    ⟨⟨some (.str "x"), []⟩,
      [("20240101_000000", sampleRec "20240101_000000" "2024-01-01T00:00:00")],
      some "20240101_000000"⟩ "20240101_000000" ⟨2024, 1, 2, 0, 0, 0, 0⟩
    (by
      intro k j hm
      simp only [List.mem_singleton, Prod.mk.injEq] at hm
      obtain ⟨hk, hj⟩ := hm
      have hj2 : j = .obj [("id", .str "20240101_000000"),
        ("messages", .arr [.obj [("role", .str "user"), ("content", .str "m"),
          ("timestamp", .str "2024-01-01T00:00:00")]]),
        ("created", .str "2024-01-01T00:00:00"),
        ("last_modified", .str "2024-01-01T00:00:00")] := by
        cases hj
        rfl
      subst hk
      rw [hj2]
      rfl)
    rfl rfl (by decide) rfl
  exact ⟨h.1, h.2.2.1, h.2.2.2.2.1⟩

/-- Claim C1 (code bug, evaluated at the failing input): the claimed
exclusivity outcome — user "a", user "b", and exactly one assistant
message, from "b"'s call — is unreachable.  Because `send_message`'s body
has no `await`, only two executions of "submit "a" then submit "b"" exist.
First conjunct: both submits are dispatched before the event loop starts
worker "a", so `exclusive=True` cancels worker "a" before its body runs —
user "a" is never appended and the session ends `[user "b",
assistant-from-b]`.  Second conjunct: worker "a" starts first and then
runs to completion atomically (blocking HTTP call included), so its
assistant message *is* appended and the session ends `[user "a",
assistant-from-a, user "b", assistant-from-b]` — two assistant messages.
In neither execution does the session hold the claimed three-message
list. -/
theorem C1_superseded_submit_loses_user_message :
    (let w0 : WorkerSched := ⟨⟨some (.str "20240101_000000"), []⟩, [], none⟩
     let oa : HttpOutcome := .ok (.obj [("choices", .arr [.obj [("message",
       .obj [("content", .str "reply-a")])]])])
     let ob : HttpOutcome := .ok (.obj [("choices", .arr [.obj [("message",
       .obj [("content", .str "reply-b")])]])])
     (runQueuedSend (submitSend (submitSend w0 "a") "b") ob
         ⟨2024, 1, 1, 0, 0, 2, 0⟩ ⟨2024, 1, 1, 0, 0, 3, 0⟩).hist.current_chat =
       [msgObj "user" "b" ⟨2024, 1, 1, 0, 0, 2, 0⟩,
        msgObj "assistant" "reply-b" ⟨2024, 1, 1, 0, 0, 3, 0⟩] ∧
     (runQueuedSend (submitSend (runQueuedSend (submitSend w0 "a") oa
           ⟨2024, 1, 1, 0, 0, 0, 0⟩ ⟨2024, 1, 1, 0, 0, 1, 0⟩) "b") ob
         ⟨2024, 1, 1, 0, 0, 2, 0⟩ ⟨2024, 1, 1, 0, 0, 3, 0⟩).hist.current_chat =
       [msgObj "user" "a" ⟨2024, 1, 1, 0, 0, 0, 0⟩,
        msgObj "assistant" "reply-a" ⟨2024, 1, 1, 0, 0, 1, 0⟩,
        msgObj "user" "b" ⟨2024, 1, 1, 0, 0, 2, 0⟩,
        msgObj "assistant" "reply-b" ⟨2024, 1, 1, 0, 0, 3, 0⟩]) :=
  ⟨rfl, rfl⟩
